import Mathlib

/-!
Shallow embedding of the ONNX graph evaluator in `candle-onnx/src/eval.rs`.

Machine integers are modelled as `Int`/`Nat`; the Rust cast `v as usize`
is modelled as reduction modulo 2^64 (64-bit targets).  Fallible code
returns `Except String`.  Tensor payloads that are `f32`/`f64` in the
source are carried as rationals: no claim computes with those payloads,
they act only as opaque data whose emptiness and identity matter.
-/

namespace CandleOnnx

/-- Rust `v as usize` on a 64-bit target: two's-complement wrap of an `i64`. -/
def toU64 (z : Int) : Nat := (z % (2 : Int) ^ 64).toNat

/-- Backend runtime dtypes (`candle::DType`), the variants used in `eval.rs`. -/
inductive DType where
  | U8 | U32 | I64 | F16 | F32 | F64
deriving DecidableEq, Repr

/-- Wire-format element types (`onnx::tensor_proto::DataType`), the variants
relevant to `dtype` plus representative unmapped ones. -/
inductive DataType where
  | Undefined | Float | Uint8 | Int8 | Uint16 | Int16 | Int32 | Int64
  | String | Bool | Float16 | Double | Uint32 | Uint64
deriving DecidableEq, Repr

/-- `DataType::try_from(i32)`: decode the ONNX element-type code. -/
def tryFromDataType (code : Int) : Option DataType :=
  if code = 0 then some .Undefined
  else if code = 1 then some .Float
  else if code = 2 then some .Uint8
  else if code = 3 then some .Int8
  else if code = 4 then some .Uint16
  else if code = 5 then some .Int16
  else if code = 6 then some .Int32
  else if code = 7 then some .Int64
  else if code = 8 then some .String
  else if code = 9 then some .Bool
  else if code = 10 then some .Float16
  else if code = 11 then some .Double
  else if code = 12 then some .Uint32
  else if code = 13 then some .Uint64
  else none

/-- `pub fn dtype(dt: DataType) -> Option<DType>` from `eval.rs`. -/
def dtype (dt : DataType) : Option DType :=
  match dt with
  | .Uint8 => some .U8
  | .Uint32 => some .U32
  | .Int64 => some .I64
  | .Float16 => some .F16
  | .Float => some .F32
  | .Double => some .F64
  | _ => none

/-- An embedded tensor descriptor (`onnx::TensorProto`): declared dims, the
element-type code, the three homogeneous typed arrays and the raw byte
buffer.  `f32`/`f64` payloads are carried as rationals. -/
structure TensorProto where
  name : String
  dims : List Int
  data_type : Int
  float_data : List ℚ
  double_data : List ℚ
  int64_data : List Int
  raw_data : List Nat
deriving DecidableEq, Repr

/-- Which representation of a `TensorProto` the materializer read, together
with the payload it read.  `Tensor::from_slice` / `Tensor::from_raw_buffer`
are backend constructors (external per the spec); the chosen source is the
observable this embedding keeps. -/
inductive TData where
  | fromFloatData (v : List ℚ)
  | fromDoubleData (v : List ℚ)
  | fromInt64Data (v : List Int)
  | fromRawBuffer (v : List Nat)
deriving DecidableEq, Repr

/-- A runtime tensor as far as the evaluator observes it: dtype, shape and
the data it was built from. -/
structure CTensor where
  dt : DType
  dims : List Nat
  data : TData
deriving DecidableEq, Repr

/-- `fn get_tensor(t: &onnx::TensorProto, name: &str) -> Result<Tensor>`
from `eval.rs`: resolve the dtype, then pick the data source with the
source's priority order. -/
def get_tensor (t : TensorProto) : Except String CTensor :=
  let dims : List Nat := t.dims.map toU64
  match tryFromDataType t.data_type with
  | some dt =>
    match dtype dt with
    | some dt =>
      if dt = .F32 ∧ t.float_data ≠ [] then
        .ok ⟨dt, dims, .fromFloatData t.float_data⟩
      else if dt = .F64 ∧ t.double_data ≠ [] then
        .ok ⟨dt, dims, .fromDoubleData t.double_data⟩
      else if dt = .I64 ∧ t.int64_data ≠ [] then
        .ok ⟨dt, dims, .fromInt64Data t.int64_data⟩
      else
        .ok ⟨dt, dims, .fromRawBuffer t.raw_data⟩
    | none => .error "unsupported value data-type (no dtype mapping)"
  | none => .error "unsupported value data-type (unknown code)"

/-- The data-source priority as the spec words it: float32 typed array if
non-empty and dtype is float32; else float64 typed array if non-empty and
dtype is float64; else int64 typed array if non-empty and dtype is int64;
otherwise the raw byte buffer. -/
def specDataSource (t : TensorProto) (dt : DType) : TData :=
  if dt = .F32 ∧ t.float_data ≠ [] then .fromFloatData t.float_data
  else if dt = .F64 ∧ t.double_data ≠ [] then .fromDoubleData t.double_data
  else if dt = .I64 ∧ t.int64_data ≠ [] then .fromInt64Data t.int64_data
  else .fromRawBuffer t.raw_data

/-- Negative-axis resolution as written (three times) in the source, for
`LogSoftmax`, `Softmax` and `Concat`:
`if axis >= 0 { axis as usize } else if axis < -num_axis { bail } else
{ (num_axis - axis) as usize }`. -/
def resolveNegAxis (axis : Int) (rank : Nat) : Except String Nat :=
  if 0 ≤ axis then .ok (toU64 axis)
  else if axis < -(rank : Int) then .error "wrong axis in concat"
  else .ok (toU64 ((rank : Int) - axis))

/-- Modelled from the spec: the backend primitive `Tensor::cat` at shape
level (the tensor backend is an external collaborator; `eval.rs` only calls
it).  All inputs must have the same rank, the axis must be in range, all
non-axis dimensions must agree; the output shape sums the axis dimension. -/
def catShapes (shapes : List (List Nat)) (axis : Nat) : Except String (List Nat) :=
  match shapes with
  | [] => .error "cannot concat an empty list of tensors"
  | s0 :: rest =>
    if axis < s0.length ∧
       rest.all (fun s => s.length = s0.length ∧
         (List.range s0.length).all (fun i => i = axis ∨ s.getD i 0 = s0.getD i 0)) then
      .ok (s0.mapIdx (fun i d => if i = axis then (shapes.map (fun s => s.getD i 0)).sum else d))
    else .error "invalid concat arguments"

/-- The `Concat` handler of `eval.rs` at shape level: fail on an empty input
list, resolve the required `axis` attribute with `resolveNegAxis` against the
rank of the first input, then call the backend concatenation. -/
def concatHandler (axis : Int) (shapes : List (List Nat)) : Except String (List Nat) :=
  match shapes with
  | [] => .error "empty concat"
  | s0 :: _ => do
    let a ← resolveNegAxis axis s0.length
    catShapes shapes a

/-- Modelled from the spec: `candle_nn::ops::softmax_last_dim` on a one
dimensional tensor (the activation backend is an external collaborator):
each entry becomes `exp x / sum of exps`.  The carrier and the exponential
are parameters so the definition stays executable; theorems instantiate
them with `ℝ` and `Real.exp`. -/
def softmaxLastDim {α : Type} [Field α] (ex : α → α) (l : List α) : List α :=
  l.map (fun x => ex x / (l.map ex).sum)

/-- Modelled from the spec: `candle_nn::ops::log_softmax` on a one
dimensional tensor along axis 0: each entry becomes
`x - log (sum of exps)`. -/
def logSoftmaxGen {α : Type} [Field α] (ex lg : α → α) (l : List α) : List α :=
  l.map (fun x => x - lg ((l.map ex).sum))

/-- The `LogSoftmax` handler of `eval.rs` on a one dimensional input
(rank 1): with no `axis` attribute it calls `softmax_last_dim`; with an
`axis` attribute it resolves the axis with `resolveNegAxis` and calls
`log_softmax` along it (which for rank 1 requires the resolved axis 0). -/
def logSoftmaxHandler {α : Type} [Field α] (ex lg : α → α)
    (axisAttr : Option Int) (input : List α) : Except String (List α) :=
  match axisAttr with
  | none => .ok (softmaxLastDim ex input)
  | some axis => do
    let a ← resolveNegAxis axis 1
    if a = 0 then .ok (logSoftmaxGen ex lg input) else .error "dimension out of range"

/-- `input0.dim(idx)` at shape level: the dimension at `idx`, failing when
`idx` is out of range. -/
def tensorDim (dims : List Nat) (idx : Nat) : Except String Nat :=
  if idx < dims.length then .ok (dims.getD idx 0) else .error "dim out of range"

/-- The per-entry map of the `Reshape` handler:
`-1 => elem_count / other_than_minus1`, `0 => input0.dim(idx)`,
`v => v as usize`, short-circuiting on the first error like
`collect::<Result<_>>`. -/
def reshapeMap (dims : List Nat) (elemCount other : Nat) :
    Nat → List Int → Except String (List Nat)
  | _, [] => .ok []
  | idx, v :: rest =>
    match (if v = -1 then .ok (elemCount / other)
           else if v = 0 then tensorDim dims idx
           else .ok (toU64 v) : Except String Nat) with
    | .ok d =>
      match reshapeMap dims elemCount other (idx + 1) rest with
      | .ok ds => .ok (d :: ds)
      | .error e => .error e
    | .error e => .error e

/-- The `Reshape` handler of `eval.rs` at shape level: compute
`other_than_minus1` as the product of the target entries that are neither
`-1` nor `0`, substitute each entry, then call the backend reshape, which
requires the element counts to agree (the backend is external; its
element-count check is modelled from the spec sentence "Output element
count must equal input element count"). -/
def reshapeHandler (dims : List Nat) (target : List Int) : Except String (List Nat) :=
  let other : Nat :=
    (target.filter (fun v => v ≠ -1 ∧ v ≠ 0)).foldl (fun acc v => acc * toU64 v) 1
  match reshapeMap dims dims.prod other 0 target with
  | .ok ds => if ds.prod = dims.prod then .ok ds else .error "shape mismatch in reshape"
  | .error e => .error e

/-- Modelled from the spec: the backend `Tensor::squeeze` at shape level
(PyTorch semantics: remove the dimension if it has size 1, otherwise return
the tensor unchanged; fail when the index is out of range). -/
def squeezeOp (dims : List Nat) (axis : Nat) : Except String (List Nat) :=
  if axis < dims.length then
    .ok (if dims.getD axis 0 = 1 then dims.eraseIdx axis else dims)
  else .error "dim out of range"

/-- The squeeze loop of `eval.rs`:
`for &axis in axes.iter().rev() { xs = xs.squeeze(axis)? }`; the argument
list is already reversed by the caller. -/
def squeezeLoop : List Nat → List Nat → Except String (List Nat)
  | dims, [] => .ok dims
  | dims, a :: rest =>
    match squeezeOp dims a with
    | .ok d2 => squeezeLoop d2 rest
    | .error e => .error e

/-- Insert into a sorted list, ascending. -/
def insertAsc (a : Nat) : List Nat → List Nat
  | [] => [a]
  | b :: rest => if a ≤ b then a :: b :: rest else b :: insertAsc a rest

/-- Rust `Vec::sort` for `Vec<usize>`, modelled as insertion sort
(ascending). -/
def sortNat : List Nat → List Nat
  | [] => []
  | a :: rest => insertAsc a (sortNat rest)

/-- The no-axis-list branch of the `Squeeze` handler: collect the indices of
the size-1 dimensions other than index 0 (`flat_map` over `enumerate`,
with the running index made explicit). -/
def squeezeAxesAux (idx : Nat) : List Nat → List Nat
  | [] => []
  | s :: rest =>
    if s = 1 ∧ 0 < idx then idx :: squeezeAxesAux (idx + 1) rest
    else squeezeAxesAux (idx + 1) rest

/-- The collected squeeze axes, starting the enumeration at index 0. -/
def squeezeAxesOf (dims : List Nat) : List Nat := squeezeAxesAux 0 dims

/-- The positions holding the value 1 in a list (ascending). -/
def onesIdx : List Nat → List Nat
  | [] => []
  | s :: rest =>
    if s = 1 then 0 :: (onesIdx rest).map (· + 1) else (onesIdx rest).map (· + 1)

/-- The no-axis `Squeeze` output as the spec words it: every dimension of
size 1 is removed except the one at axis 0. -/
def specSqueezeAll : List Nat → List Nat
  | [] => []
  | d :: rest => d :: rest.filter (fun s => s ≠ 1)

/-- The negative-index resolution of the `Squeeze` handler:
`if i < 0 { (xs.rank() as i64 + i) as usize } else { i as usize }`. -/
def resolveSqueezeIdx (rank : Nat) (i : Int) : Nat :=
  if i < 0 then toU64 ((rank : Int) + i) else toU64 i

/-- The `Squeeze` handler of `eval.rs` at shape level: when no axis input is
given, squeeze every size-1 dimension except index 0; when an axis list is
given, resolve negative indices, sort ascending, and squeeze from the
highest index to the lowest. -/
def squeezeHandler (dims : List Nat) (axesInput : Option (List Int)) : Except String (List Nat) :=
  let axes : List Nat :=
    match axesInput with
    | none => squeezeAxesOf dims
    | some l => l.map (resolveSqueezeIdx dims.length)
  squeezeLoop dims (sortNat axes).reverse

/-- One dimension of a declared tensor shape
(`onnx::tensor_shape_proto::dimension::Value`); `noValue` models
`dim.value == None`, on which the source panics via `expect`. -/
inductive DimProto where
  | dimValue (v : Int)
  | dimParam (s : String)
  | noValue
deriving DecidableEq, Repr

/-- `onnx::TensorShapeProto`. -/
structure TensorShapeProto where
  dim : List DimProto
deriving DecidableEq, Repr

/-- `onnx::type_proto::Tensor`: element-type code and optional shape. -/
structure TensorTypeProto where
  elem_type : Int
  shape : Option TensorShapeProto
deriving DecidableEq, Repr

/-- `onnx::type_proto::Value`: either a tensor type or some other variant
(sequence, map, ...), which the validation loop skips. -/
inductive TypeValue where
  | tensorType (tt : TensorTypeProto)
  | otherType
deriving DecidableEq, Repr

/-- `onnx::TypeProto`. -/
structure TypeProto where
  value : Option TypeValue
deriving DecidableEq, Repr

/-- `onnx::ValueInfoProto` for a declared graph input. -/
structure ValueInfoProto where
  name : String
  typ : Option TypeProto
deriving DecidableEq, Repr

/-- The declared-dimension collection of the input-validation loop:
`DimValue(v) => v as usize`, `DimParam(_) => bail`, and a missing dim value
panics (modelled as an error). -/
def dimsOf : List DimProto → Except String (List Nat)
  | [] => .ok []
  | .dimValue v :: rest =>
    match dimsOf rest with
    | .ok ds => .ok (toU64 v :: ds)
    | .error e => .error e
  | .dimParam _ :: _ => .error "DimParam is unsupported for input"
  | .noValue :: _ => .error "no dim value"

/-- The value environment: name-to-tensor map with overwrite-on-insert
semantics (`HashMap<String, Value>`); lookup returns the most recent
insertion. -/
def Env := List (String × CTensor)

/-- `HashMap::insert` (overwrite). -/
def envInsert (env : Env) (k : String) (v : CTensor) : Env := (k, v) :: env

/-- `HashMap::get`. -/
def envLookup (env : Env) (k : String) : Option CTensor :=
  match env with
  | [] => none
  | (k2, v) :: rest => if k2 = k then some v else envLookup rest k

/-- The per-input body of the validation loop of `simple_eval`
(lines 149-203): skip inputs without a concrete tensor type; fail when the
supplied tensor is missing; resolve the declared dtype; skip the dtype and
shape comparison when no shape is declared (the `continue` in the source
skips both); fail on symbolic dimensions; then compare dtype and dims. -/
def validateInput (env : Env) (input : ValueInfoProto) : Except String Unit :=
  match input.typ with
  | none => .ok ()
  | some tp =>
    match tp.value with
    | none => .ok ()
    | some .otherType => .ok ()
    | some (.tensorType tt) =>
      match envLookup env input.name with
      | none => .error "missing input"
      | some tensor =>
        match tryFromDataType tt.elem_type with
        | none => .error "unsupported input type"
        | some dt0 =>
          match dtype dt0 with
          | none => .error "unsupported value data-type for input"
          | some dt =>
            match tt.shape with
            | none => .ok ()
            | some shape =>
              match dimsOf shape.dim with
              | .error e => .error e
              | .ok dims =>
                if dt ≠ tensor.dt then .error "unexpected dtype for input"
                else if dims ≠ tensor.dims then .error "unexpected shape for input"
                else .ok ()

/-- The whole input-validation loop, short-circuiting on the first error. -/
def validateInputs (env : Env) : List ValueInfoProto → Except String Unit
  | [] => .ok ()
  | input :: rest =>
    match validateInput env input with
    | .ok _ => validateInputs env rest
    | .error e => .error e

/-- The environment seeding of `simple_eval` (lines 144-148): start from the
caller-supplied inputs, then materialize and insert every graph initializer
in order. -/
def seedEnv (inputs : Env) : List TensorProto → Except String Env
  | [] => .ok inputs
  | t :: rest =>
    match get_tensor t with
    | .ok tensor => seedEnv (envInsert inputs t.name tensor) rest
    | .error e => .error e

/-- The phase structure of `simple_eval`: seed the environment from inputs
and initializers, validate the declared inputs, and only then run the node
loop.  The node loop itself is the `runNodes` parameter: any function from
environments to environments-or-error, so theorems about the earlier phases
hold for every node loop. -/
def simpleEvalPhases (runNodes : Env → Except String Env)
    (initializers : List TensorProto) (declaredInputs : List ValueInfoProto)
    (inputs : Env) : Except String Env :=
  match seedEnv inputs initializers with
  | .error e => .error e
  | .ok env =>
    match validateInputs env declaredInputs with
    | .error e => .error e
    | .ok _ => runNodes env

/-- The attributes read by the `MaxPool` / `AveragePool` handlers.
`kernel_shape` is required (a missing attribute fails in `get_attr` before
the handler logic); the others are optional. -/
structure PoolAttrs where
  dilations : Option (List Int)
  kernel_shape : List Int
  pads : Option (List Int)
  strides : Option (List Int)
  auto_pad : Option String
deriving DecidableEq, Repr

/-- The backend pooling invocation a pool handler ends in: either
`max_pool2d`/`avg_pool2d` with the kernel only, or the `_with_stride`
variant. -/
inductive PoolCall where
  | noStride (k1 k2 : Nat)
  | withStride (k1 k2 s1 s2 : Nat)
deriving DecidableEq, Repr

/-- The `MaxPool` handler of `eval.rs` (lines 322-356), up to the backend
invocation (the environment lookup of the data input is orthogonal and
omitted): reject unsupported auto_pad, non-identity dilations, non-zero
pads, and kernel/stride descriptors that are not two-dimensional. -/
def maxPoolHandler (a : PoolAttrs) : Except String PoolCall :=
  if ¬(a.auto_pad = none ∨ a.auto_pad = some "NOTSET") then .error "unsupported auto_pad"
  else if (a.dilations.getD []).any (fun v => v ≠ 1) then .error "MaxPool with dilation != 1"
  else if (a.pads.getD []).any (fun v => v ≠ 0) then .error "MaxPool with pads != 0"
  else
    match a.kernel_shape with
    | [k1, k2] =>
      match a.strides with
      | none => .ok (.noStride (toU64 k1) (toU64 k2))
      | some [s1, s2] => .ok (.withStride (toU64 k1) (toU64 k2) (toU64 s1) (toU64 s2))
      | some _ => .error "only 2d MaxPool is supported, strides"
    | _ => .error "only 2d MaxPool is supported, kernel shape"

/-- The `AveragePool` handler of `eval.rs` (lines 357-391); identical
structure to `MaxPool` with `avg_pool2d` as the backend call. -/
def avgPoolHandler (a : PoolAttrs) : Except String PoolCall :=
  if ¬(a.auto_pad = none ∨ a.auto_pad = some "NOTSET") then .error "unsupported auto_pad"
  else if (a.dilations.getD []).any (fun v => v ≠ 1) then .error "AvgPool with dilation != 1"
  else if (a.pads.getD []).any (fun v => v ≠ 0) then .error "AvgPool with pads != 0"
  else
    match a.kernel_shape with
    | [k1, k2] =>
      match a.strides with
      | none => .ok (.noStride (toU64 k1) (toU64 k2))
      | some [s1, s2] => .ok (.withStride (toU64 k1) (toU64 k2) (toU64 s1) (toU64 s2))
      | some _ => .error "only 2d AvgPool is supported, strides"
    | _ => .error "only 2d AvgPool is supported, kernel shape"

/-- The rejection conditions the claim lists for the pool handlers: a
dilation entry other than 1, a pads entry other than 0, an auto_pad other
than the no-padding mode, or a kernel / strides descriptor whose length is
not 2. -/
def poolRejects (a : PoolAttrs) : Bool :=
  (a.dilations.getD []).any (fun v => v ≠ 1) ||
  (a.pads.getD []).any (fun v => v ≠ 0) ||
  (match a.auto_pad with | none => false | some s => s ≠ "NOTSET") ||
  a.kernel_shape.length ≠ 2 ||
  (match a.strides with | none => false | some s => s.length ≠ 2)

/-- Whether a fallible computation succeeded. -/
def exceptIsOk {α : Type} : Except String α → Bool
  | .ok _ => true
  | .error _ => false

/-- The backend call the handlers make when nothing is rejected. -/
def poolCallOf (a : PoolAttrs) : Option PoolCall :=
  match a.kernel_shape, a.strides with
  | [k1, k2], none => some (.noStride (toU64 k1) (toU64 k2))
  | [k1, k2], some [s1, s2] => some (.withStride (toU64 k1) (toU64 k2) (toU64 s1) (toU64 s2))
  | _, _ => none

/-- A rank-4 runtime tensor (batch, channel, height, width) with its
element access function; elements are modelled as integers (the claim
about convolution is about value identity, not rounding). -/
structure Tensor4 where
  n : Nat
  c : Nat
  h : Nat
  w : Nat
  data : Nat → Nat → Nat → Nat → Int

/-- Modelled from the spec: the backend `Tensor::pad_with_zeros` on axis 2
(height): `before` zero rows above, `after` zero rows below. -/
def padAxis2 (t : Tensor4) (before after : Nat) : Tensor4 :=
  ⟨t.n, t.c, before + t.h + after, t.w, fun b c r s =>
    if before ≤ r ∧ r < before + t.h then t.data b c (r - before) s else 0⟩

/-- Modelled from the spec: the backend `Tensor::pad_with_zeros` on axis 3
(width). -/
def padAxis3 (t : Tensor4) (before after : Nat) : Tensor4 :=
  ⟨t.n, t.c, t.h, before + t.w + after, fun b c r s =>
    if before ≤ s ∧ s < before + t.w then t.data b c r (s - before) else 0⟩

/-- Modelled from the spec: the backend `Tensor::conv2d` with symmetric
padding `pad`, uniform stride and dilation, and grouped channels; the input
is conceptually zero-padded by `pad` on both sides of both spatial axes. -/
def conv2d (xs ws : Tensor4) (pad stride dil groups : Nat) : Tensor4 :=
  let hOut := (xs.h + 2 * pad - dil * (ws.h - 1) - 1) / stride + 1
  let wOut := (xs.w + 2 * pad - dil * (ws.w - 1) - 1) / stride + 1
  let xpad : Nat → Nat → Nat → Nat → Int := fun b c r s =>
    if pad ≤ r ∧ r < pad + xs.h ∧ pad ≤ s ∧ s < pad + xs.w then
      xs.data b c (r - pad) (s - pad)
    else 0
  ⟨xs.n, ws.n, hOut, wOut, fun b co i j =>
    ∑ ci ∈ Finset.range ws.c, ∑ ki ∈ Finset.range ws.h, ∑ kj ∈ Finset.range ws.w,
      ws.data co ci ki kj *
        xpad b (co / (ws.n / groups) * ws.c + ci)
          (stride * i + dil * ki) (stride * j + dil * kj)⟩

/-- The pads branch of the 2-D `Conv` handler of `eval.rs`
(lines 511-529 plus the `conv2d` invocation at line 562): no pads or a
single pad go to the fused call; four pads go to the fused call when all
equal, and otherwise the input is explicitly zero-padded on axis 2 by
`p1`/`p3` and on axis 3 by `p2`/`p4` and the convolution is invoked with
zero padding; any other pads length fails. -/
def convPadsBranch (padsAttr : Option (List Int)) (xs ws : Tensor4)
    (stride dil groups : Nat) : Except String Tensor4 :=
  match padsAttr with
  | none => .ok (conv2d xs ws 0 stride dil groups)
  | some [p] => .ok (conv2d xs ws (toU64 p) stride dil groups)
  | some [p1, p2, p3, p4] =>
    let q1 := toU64 p1
    let q2 := toU64 p2
    let q3 := toU64 p3
    let q4 := toU64 p4
    if q1 ≠ q2 ∨ q1 ≠ q3 ∨ q1 ≠ q4 then
      .ok (conv2d (padAxis3 (padAxis2 xs q1 q3) q2 q4) ws 0 stride dil groups)
    else .ok (conv2d xs ws q1 stride dil groups)
  | some _ => .error "more pads than expected in conv2d"

/-- The claim's reference computation, following the spec's words: first
explicitly zero-pad the input along the two spatial axes (axis 2 by `p1`
before and `p3` after, axis 3 by `p2` before and `p4` after), then invoke
the backend convolution with zero padding. -/
def specExplicitPadConv (p1 p2 p3 p4 : Nat) (xs ws : Tensor4)
    (stride dil groups : Nat) : Tensor4 :=
  conv2d (padAxis3 (padAxis2 xs p1 p3) p2 p4) ws 0 stride dil groups

/-- C1: the claim says a negative Softmax/LogSoftmax `axis` is resolved by
the standard `rank + axis` formula, with `axis = -1` resolving to
`rank - 1`.  The source instead computes `rank - axis`: at `axis = -1` on a
rank-2 input it resolves to 3, not the last axis 1, while the non-negative
branch indeed uses the axis as-is. -/
theorem softmax_neg_axis_resolution_is_rank_minus_axis :
    resolveNegAxis (-1) 2 = .ok 3 ∧ resolveNegAxis 1 2 = .ok 1 ∧ (3 : Nat) ≠ 2 - 1 := by
  refine ⟨by rfl, by rfl, by decide⟩

/-- C2: the claim says Concat resolves `axis = -1` against rank 2 to axis 1,
so shapes (2,3) and (2,5) concatenate to (2,8).  The source resolves
`-1` to `rank - axis = 3`, an out-of-range axis, so the backend
concatenation fails; concatenating on axis 1 would indeed give (2,8). -/
theorem concat_neg_axis_fails :
    concatHandler (-1) [[2, 3], [2, 5]] = .error "invalid concat arguments" ∧
    resolveNegAxis (-1) 2 = .ok 3 ∧
    catShapes [[2, 3], [2, 5]] 1 = .ok [2, 8] ∧
    concatHandler 1 [[2, 3], [2, 5]] = .ok [2, 8] := by
  refine ⟨by rfl, by rfl, by rfl, by rfl⟩

/-- C3: the claim says a `LogSoftmax` node without an `axis` attribute
outputs the log-softmax over the last axis.  The source's no-axis branch
calls `softmax_last_dim`, the plain softmax: on the input `[0, 0]` it
returns `[1/2, 1/2]`, while the log-softmax is `[-log 2, -log 2]`, and the
two differ. -/
theorem logsoftmax_no_axis_computes_softmax :
    logSoftmaxHandler Real.exp Real.log none [(0 : ℝ), 0] = .ok [1 / 2, 1 / 2] ∧
    logSoftmaxGen Real.exp Real.log [(0 : ℝ), 0] = [-Real.log 2, -Real.log 2] ∧
    ([1 / 2, 1 / 2] : List ℝ) ≠ [-Real.log 2, -Real.log 2] := by
  refine ⟨?_, ?_, ?_⟩
  · simp [logSoftmaxHandler, softmaxLastDim, Real.exp_zero]
    norm_num
  · simp [logSoftmaxGen, Real.exp_zero]
    norm_num
  · intro h
    have h1 : (1 / 2 : ℝ) = -Real.log 2 := by
      have := congrArg (fun l => l.headD 0) h
      simpa using this
    have h2 : 0 < Real.log 2 := Real.log_pos (by norm_num)
    linarith

/-- A declared dimension list containing a symbolic (`DimParam`) entry makes
the dimension collection fail. -/
theorem dimsOf_param_error {s : String} :
    ∀ {l : List DimProto}, DimProto.dimParam s ∈ l → ∃ e, dimsOf l = .error e := by
  intro l h
  induction l with
  | nil => cases h
  | cons d rest ih =>
    cases d with
    | dimValue v =>
      have hm : DimProto.dimParam s ∈ rest := by
        rcases List.mem_cons.mp h with h1 | h1
        · exact absurd h1 (by simp)
        · exact h1
      obtain ⟨e, he⟩ := ih hm
      exact ⟨e, by simp [dimsOf, he]⟩
    | dimParam s2 => exact ⟨"DimParam is unsupported for input", rfl⟩
    | noValue => exact ⟨"no dim value", rfl⟩

/-- C4 counterexample: the claim says a dimension declared with
symbolic/parametric size is accepted without shape validation.  On a
declared input whose shape is the single symbolic dimension `"N"`, with a
matching tensor supplied, the validation loop fails instead. -/
theorem validate_symbolic_dim_fails :
    validateInput [("x", ⟨DType.F32, [2], TData.fromRawBuffer []⟩)]
      ⟨"x", some ⟨some (.tensorType ⟨1, some ⟨[.dimParam "N"]⟩⟩)⟩⟩ =
      .error "DimParam is unsupported for input" := rfl

/-- C4 (amended): for a declared input carrying a concrete tensor element
type and shape, validation passes exactly when the declared dims and dtype
match the supplied tensor (so a dtype or dimension-list mismatch fails); a
symbolic dimension also fails; and a validation error aborts the evaluation
before any node runs, whatever the node loop would do. -/
theorem input_validation_checks :
    ∀ (env : Env) (name : String) (tensor : CTensor) (etcode : Int)
      (dt0 : DataType) (dt : DType) (ds : List DimProto),
      envLookup env name = some tensor →
      tryFromDataType etcode = some dt0 → dtype dt0 = some dt →
      ((validateInput env ⟨name, some ⟨some (.tensorType ⟨etcode, some ⟨ds⟩⟩)⟩⟩ = .ok ()) ↔
        (dimsOf ds = .ok tensor.dims ∧ dt = tensor.dt)) ∧
      ((∃ s, DimProto.dimParam s ∈ ds) →
        ∃ e, validateInput env ⟨name, some ⟨some (.tensorType ⟨etcode, some ⟨ds⟩⟩)⟩⟩ = .error e) ∧
      (∀ (runNodes : Env → Except String Env) (inits : List TensorProto)
         (decls : List ValueInfoProto) (inputs : Env) (env2 : Env) (e : String),
         seedEnv inputs inits = .ok env2 → validateInputs env2 decls = .error e →
         simpleEvalPhases runNodes inits decls inputs = .error e) := by
  intro env name tensor etcode dt0 dt ds hlook htry hdt
  refine ⟨?_, ?_, ?_⟩
  · simp only [validateInput, hlook, htry, hdt]
    cases hds : dimsOf ds with
    | error e => simp [hds]
    | ok ds2 =>
      by_cases h1 : dt = tensor.dt
      · by_cases h2 : ds2 = tensor.dims
        · simp [h1, h2]
        · simp [h1, h2]
      · simp [h1]
  · rintro ⟨s, hs⟩
    obtain ⟨e, he⟩ := dimsOf_param_error hs
    exact ⟨e, by simp [validateInput, hlook, htry, hdt, he]⟩
  · intro runNodes inits decls inputs env2 e hseed hval
    simp [simpleEvalPhases, hseed, hval]

/-- C4 witness: a concrete declared input `(F32, [2, 3])` with a matching
supplied tensor passes validation. -/
theorem input_validation_checks_witness :
    validateInput [("x", ⟨DType.F32, [2, 3], TData.fromRawBuffer []⟩)]
      ⟨"x", some ⟨some (.tensorType ⟨1, some ⟨[.dimValue 2, .dimValue 3]⟩⟩)⟩⟩ = .ok () :=
  (input_validation_checks [("x", ⟨DType.F32, [2, 3], TData.fromRawBuffer []⟩)] "x"
    ⟨DType.F32, [2, 3], TData.fromRawBuffer []⟩ 1 DataType.Float DType.F32
    [.dimValue 2, .dimValue 3] rfl rfl rfl).1.mpr ⟨rfl, rfl⟩

/-- Pointwise characterization of the `Reshape` entry substitution: a
successful pass maps `-1` to `elem_count / other`, `0` to the input
dimension at the same index, and any other entry to its `usize` cast. -/
theorem reshapeMap_ok (dims : List Nat) (ec other : Nat) :
    ∀ (l : List Int) (idx : Nat) (out : List Nat),
      reshapeMap dims ec other idx l = .ok out →
      out.length = l.length ∧
      ∀ i, i < l.length →
        out.getD i 0 =
          (if l.getD i 0 = -1 then ec / other
           else if l.getD i 0 = 0 then dims.getD (idx + i) 0
           else toU64 (l.getD i 0)) := by
  intro l
  induction l with
  | nil =>
    intro idx out h
    simp only [reshapeMap] at h
    cases h
    exact ⟨rfl, fun i hi => absurd hi (by simp)⟩
  | cons v rest ih =>
    intro idx out h
    simp only [reshapeMap] at h
    cases h1 : (if v = -1 then Except.ok (ec / other)
                else if v = 0 then tensorDim dims idx
                else Except.ok (toU64 v) : Except String Nat) with
    | error e => rw [h1] at h; cases h
    | ok d =>
      rw [h1] at h
      cases h2 : reshapeMap dims ec other (idx + 1) rest with
      | error e => rw [h2] at h; cases h
      | ok ds =>
        rw [h2] at h
        cases h
        obtain ⟨hlen, hpt⟩ := ih (idx + 1) ds h2
        refine ⟨by simp [hlen], ?_⟩
        intro i hi
        cases i with
        | zero =>
          simp only [List.getD_cons_zero]
          by_cases hv1 : v = -1
          · rw [if_pos hv1] at h1
            cases h1
            simp [hv1]
          · by_cases hv0 : v = 0
            · rw [if_neg hv1, if_pos hv0] at h1
              simp only [tensorDim] at h1
              by_cases hrange : idx < dims.length
              · rw [if_pos hrange] at h1
                cases h1
                simp [hv1, hv0]
              · rw [if_neg hrange] at h1
                cases h1
            · rw [if_neg hv1, if_neg hv0] at h1
              cases h1
              simp [hv1, hv0]
        | succ i2 =>
          have hi2 : i2 < rest.length := by simpa using hi
          have := hpt i2 hi2
          simp only [List.getD_cons_succ]
          rw [this]
          have harith : idx + 1 + i2 = idx + (i2 + 1) := by omega
          rw [harith]

/-- C5 counterexample: the claim says reshaping input shape (2,12) with
target `[0, -1]` yields (2,12).  The source's divisor ignores the `0`
entry, so the `-1` is inferred as 24, the computed dims are (2,24), and the
backend reshape fails because 48 is not the input element count 24. -/
theorem reshape_zero_and_infer_fails :
    reshapeMap [2, 12] 24 1 0 [0, -1] = .ok [2, 24] ∧
    reshapeHandler [2, 12] [0, -1] = .error "shape mismatch in reshape" :=
  ⟨rfl, rfl⟩

/-- C5 (amended): each `-1` target entry becomes the input element count
divided by the product of the entries that are neither `-1` nor `0`, each
`0` entry copies the input dimension at its index, and a successful reshape
has exactly those dimensions with the input's element count; target
`[-1, 3, 4]` on 24 elements yields `(2,3,4)`, while target `[0, -1]` on
shape `(2,12)` computes dims `(2,24)` and fails the element-count check. -/
theorem reshape_inference :
    (∀ (dims : List Nat) (target : List Int) (out : List Nat),
       reshapeHandler dims target = .ok out →
       out.prod = dims.prod ∧ out.length = target.length ∧
       ∀ i, i < target.length →
         out.getD i 0 =
           (if target.getD i 0 = -1 then
              dims.prod /
                ((target.filter (fun v => v ≠ -1 ∧ v ≠ 0)).foldl (fun acc v => acc * toU64 v) 1)
            else if target.getD i 0 = 0 then dims.getD i 0
            else toU64 (target.getD i 0))) ∧
    reshapeHandler [24] [-1, 3, 4] = .ok [2, 3, 4] ∧
    reshapeMap [2, 12] 24 1 0 [0, -1] = .ok [2, 24] ∧
    reshapeHandler [2, 12] [0, -1] = .error "shape mismatch in reshape" := by
  refine ⟨?_, rfl, rfl, rfl⟩
  intro dims target out h
  simp only [reshapeHandler] at h
  split at h
  next ds h2 =>
    by_cases hp : ds.prod = dims.prod
    · rw [if_pos hp] at h
      cases h
      obtain ⟨hlen, hpt⟩ := reshapeMap_ok dims dims.prod _ target 0 out h2
      exact ⟨hp, hlen, fun i hi => by simpa using hpt i hi⟩
    · rw [if_neg hp] at h
      cases h
  next e h2 => cases h

/-- C5 witness: the target `[-1, 3, 4]` on a 24-element tensor keeps the
element count. -/
theorem reshape_inference_witness :
    ([2, 3, 4] : List Nat).prod = ([24] : List Nat).prod :=
  (reshape_inference.1 [24] [-1, 3, 4] [2, 3, 4] (by rfl)).1

/-- C6: when the element-type code resolves to a runtime dtype, the
materialized tensor carries that dtype, the declared dimensions, and the
data source picked by the spec's priority order (float32 array, then
float64 array, then int64 array, then raw bytes); an element type with no
dtype mapping, or an unknown code, fails. -/
theorem get_tensor_data_source_priority :
    ∀ (t : TensorProto) (dt0 : DataType) (dt : DType),
      (tryFromDataType t.data_type = some dt0 → dtype dt0 = some dt →
        get_tensor t = .ok ⟨dt, t.dims.map toU64, specDataSource t dt⟩) ∧
      (tryFromDataType t.data_type = none → ∃ e, get_tensor t = .error e) ∧
      (tryFromDataType t.data_type = some dt0 → dtype dt0 = none →
        ∃ e, get_tensor t = .error e) := by
  intro t dt0 dt
  refine ⟨?_, ?_, ?_⟩
  · intro htry hdt
    simp only [get_tensor, htry, hdt, specDataSource]
    split_ifs <;> rfl
  · intro htry
    exact ⟨"unsupported value data-type (unknown code)", by simp [get_tensor, htry]⟩
  · intro htry hdt
    exact ⟨"unsupported value data-type (no dtype mapping)", by simp [get_tensor, htry, hdt]⟩

/-- C6 witness: a tensor descriptor with int64 dtype and a non-empty
int64 typed array materializes from that array. -/
theorem get_tensor_data_source_priority_witness :
    get_tensor ⟨"t", [2], 7, [], [], [5, 6], []⟩ =
      .ok ⟨DType.I64, ([2] : List Int).map toU64,
        specDataSource ⟨"t", [2], 7, [], [], [5, 6], []⟩ DType.I64⟩ :=
  (get_tensor_data_source_priority ⟨"t", [2], 7, [], [], [5, 6], []⟩
    DataType.Int64 DType.I64).1 rfl rfl

/-- `v as usize` is plain `Int.toNat` on in-range non-negative values. -/
theorem toU64_eq {z : Int} (h0 : 0 ≤ z) (h1 : z < 2 ^ 64) : toU64 z = z.toNat := by
  unfold toU64
  rw [Int.emod_eq_of_lt h0 h1]

/-- The axis collection at a positive running index is the 1-positions of
the remaining dims, shifted by that index. -/
theorem squeezeAxesAux_succ :
    ∀ (l : List Nat) (k : Nat), squeezeAxesAux (k + 1) l = (onesIdx l).map (· + (k + 1)) := by
  intro l
  induction l with
  | nil => intro k; rfl
  | cons s rest ih =>
    intro k
    by_cases hs : s = 1
    · subst hs
      simp only [squeezeAxesAux, onesIdx]
      rw [if_pos ⟨trivial, Nat.succ_pos k⟩, if_pos trivial, ih (k + 1)]
      simp only [List.map_cons, List.map_map, Nat.zero_add]
      refine congrArg (List.cons (k + 1)) ?_
      apply List.map_congr_left
      intro a _
      simp only [Function.comp_apply]
      omega
    · simp only [squeezeAxesAux, onesIdx]
      rw [if_neg (by simp [hs]), if_neg hs, ih (k + 1)]
      simp only [List.map_map]
      apply List.map_congr_left
      intro a _
      simp only [Function.comp_apply]
      omega

/-- Inserting an element below the head of a sorted list prepends it. -/
theorem insertAsc_of_le :
    ∀ (l : List Nat) (a : Nat), (∀ b ∈ l, a ≤ b) → insertAsc a l = a :: l := by
  intro l a h
  cases l with
  | nil => rfl
  | cons b rest =>
    simp only [insertAsc]
    rw [if_pos (h b (by simp))]

/-- Sorting an already ascending list leaves it unchanged. -/
theorem sortNat_eq_of_sorted :
    ∀ l : List Nat, List.Sorted (· ≤ ·) l → sortNat l = l := by
  intro l
  induction l with
  | nil => intro _; rfl
  | cons a rest ih =>
    intro h
    rw [List.sorted_cons] at h
    simp only [sortNat]
    rw [ih h.2, insertAsc_of_le rest a h.1]

/-- The 1-positions of a list are strictly ascending. -/
theorem onesIdx_sorted : ∀ l : List Nat, List.Sorted (· < ·) (onesIdx l) := by
  intro l
  induction l with
  | nil => exact List.sorted_nil
  | cons a rest ih =>
    have hmap : List.Sorted (· < ·) ((onesIdx rest).map (· + 1)) := by
      exact List.Pairwise.map _ (fun a b h => by omega) ih
    by_cases ha : a = 1
    · simp only [onesIdx]
      rw [if_pos ha, List.sorted_cons]
      refine ⟨?_, hmap⟩
      intro b hb
      obtain ⟨c, _, rfl⟩ := List.mem_map.mp hb
      omega
    · simp only [onesIdx]
      rw [if_neg ha]
      exact hmap

/-- Squeezing a shifted axis leaves the head dimension alone. -/
theorem squeezeOp_cons_succ (d : Nat) (t : List Nat) (j : Nat) :
    squeezeOp (d :: t) (j + 1) = (squeezeOp t j).map (fun l => d :: l) := by
  simp only [squeezeOp, List.length_cons]
  by_cases hj : j < t.length
  · rw [if_pos (by omega), if_pos hj]
    simp only [List.getD_cons_succ, List.eraseIdx_cons_succ, Except.map]
    split <;> rfl
  · rw [if_neg (by omega), if_neg hj]
    rfl

/-- Running the squeeze loop on uniformly shifted axes acts below the head
dimension. -/
theorem squeezeLoop_map_succ :
    ∀ (js : List Nat) (d : Nat) (t : List Nat),
      squeezeLoop (d :: t) (js.map (· + 1)) = (squeezeLoop t js).map (fun l => d :: l) := by
  intro js
  induction js with
  | nil => intro d t; rfl
  | cons j rest ih =>
    intro d t
    simp only [List.map_cons, squeezeLoop, squeezeOp_cons_succ]
    cases h : squeezeOp t j with
    | error e => simp [h, Except.map, squeezeLoop]
    | ok t2 => simp [h, Except.map, squeezeLoop, ih]

/-- The squeeze loop over an appended axis list runs the two parts in
sequence. -/
theorem squeezeLoop_append :
    ∀ (l1 l2 dims : List Nat),
      squeezeLoop dims (l1 ++ l2) =
        match squeezeLoop dims l1 with
        | .ok d2 => squeezeLoop d2 l2
        | .error e => .error e := by
  intro l1
  induction l1 with
  | nil => intro l2 dims; rfl
  | cons a rest ih =>
    intro l2 dims
    simp only [List.cons_append, squeezeLoop]
    cases h : squeezeOp dims a with
    | error e => rfl
    | ok d2 => exact ih l2 d2

/-- Squeezing all 1-positions of a list, highest first, filters the 1s
out. -/
theorem squeezeLoop_onesIdx :
    ∀ t : List Nat, squeezeLoop t (onesIdx t).reverse = .ok (t.filter (fun s => s ≠ 1)) := by
  intro t
  induction t with
  | nil => rfl
  | cons a t ih =>
    by_cases ha : a = 1
    · subst ha
      simp only [onesIdx]
      rw [if_pos trivial, List.reverse_cons, ← List.map_reverse,
        squeezeLoop_append, squeezeLoop_map_succ, ih]
      simp only [Except.map]
      have h0 : squeezeLoop (1 :: t.filter (fun s => s ≠ 1)) [0] =
          .ok (t.filter (fun s => s ≠ 1)) := by
        simp [squeezeLoop, squeezeOp]
      rw [h0]
      simp
    · simp only [onesIdx]
      rw [if_neg ha, ← List.map_reverse, squeezeLoop_map_succ, ih]
      simp [Except.map, List.filter_cons, ha]

/-- C7: with no axis list, `Squeeze` removes every dimension of size 1
except axis 0 (shape (1,3,1,4) becomes (1,3,4)); with an explicit axis
list, negative indices are resolved as `rank + index` (axes are then sorted
ascending and removed from the highest resolved index to the lowest, as the
handler's loop does), and axes `[-1]` on shape (2,5,1) yields (2,5). -/
theorem squeeze_semantics :
    (∀ dims : List Nat, squeezeHandler dims none = .ok (specSqueezeAll dims)) ∧
    squeezeHandler [1, 3, 1, 4] none = .ok [1, 3, 4] ∧
    squeezeHandler [2, 5, 1] (some [-1]) = .ok [2, 5] ∧
    (∀ (rank : Nat) (i : Int), -(rank : Int) ≤ i → i < 0 → (rank : Int) < 2 ^ 64 →
      resolveSqueezeIdx rank i = ((rank : Int) + i).toNat) := by
  refine ⟨?_, by rfl, by rfl, ?_⟩
  · intro dims
    cases dims with
    | nil => rfl
    | cons d rest =>
      simp only [squeezeHandler, squeezeAxesOf, squeezeAxesAux]
      rw [if_neg (by simp), squeezeAxesAux_succ]
      rw [sortNat_eq_of_sorted _ ((List.Pairwise.map _ (fun a b h => by omega)
        (onesIdx_sorted rest)).imp (fun h => Nat.le_of_lt h))]
      rw [← List.map_reverse, squeezeLoop_map_succ, squeezeLoop_onesIdx]
      rfl
  · intro rank i h1 h2 h3
    simp only [resolveSqueezeIdx, if_pos h2]
    exact toU64_eq (by omega) (by omega)

/-- C7 witness: axis `-1` against rank 3 resolves to `3 + (-1) = 2`. -/
theorem squeeze_semantics_witness :
    resolveSqueezeIdx 3 (-1) = ((3 : Int) + (-1)).toNat :=
  squeeze_semantics.2.2.2 3 (-1) (by norm_num) (by norm_num) (by norm_num)

/-- C8: for a rank-4 weight and an asymmetric `pads` attribute
`[p1, p2, p3, p4]` (not all four equal), the Conv handler's result is
exactly the convolution of the explicitly zero-padded input (axis 2 by `p1`
before / `p3` after, axis 3 by `p2` before / `p4` after) with zero
padding. -/
theorem conv_asymmetric_pad_explicit :
    ∀ (p1 p2 p3 p4 : Int) (xs ws : Tensor4) (stride dil groups : Nat),
      0 ≤ p1 → p1 < 2 ^ 64 → 0 ≤ p2 → p2 < 2 ^ 64 → 0 ≤ p3 → p3 < 2 ^ 64 →
      0 ≤ p4 → p4 < 2 ^ 64 →
      ¬(p1 = p2 ∧ p1 = p3 ∧ p1 = p4) →
      convPadsBranch (some [p1, p2, p3, p4]) xs ws stride dil groups =
        .ok (specExplicitPadConv p1.toNat p2.toNat p3.toNat p4.toNat xs ws stride dil groups) := by
  intro p1 p2 p3 p4 xs ws stride dil groups h1 h1b h2 h2b h3 h3b h4 h4b hne
  have e1 : toU64 p1 = p1.toNat := toU64_eq h1 h1b
  have e2 : toU64 p2 = p2.toNat := toU64_eq h2 h2b
  have e3 : toU64 p3 = p3.toNat := toU64_eq h3 h3b
  have e4 : toU64 p4 = p4.toNat := toU64_eq h4 h4b
  have hcond : toU64 p1 ≠ toU64 p2 ∨ toU64 p1 ≠ toU64 p3 ∨ toU64 p1 ≠ toU64 p4 := by
    rw [e1, e2, e3, e4]
    by_contra hc
    push_neg at hc
    exact hne ⟨by omega, by omega, by omega⟩
  simp only [convPadsBranch]
  rw [if_pos hcond, e1, e2, e3, e4]
  rfl

/-- C8 witness: the asymmetric pads `[0, 1, 0, 1]` on concrete unit
tensors. -/
theorem conv_asymmetric_pad_explicit_witness :
    convPadsBranch (some [0, 1, 0, 1]) ⟨1, 1, 1, 1, fun _ _ _ _ => 1⟩
        ⟨1, 1, 1, 1, fun _ _ _ _ => 1⟩ 1 1 1 =
      .ok (specExplicitPadConv (Int.toNat 0) (Int.toNat 1) (Int.toNat 0) (Int.toNat 1)
        ⟨1, 1, 1, 1, fun _ _ _ _ => 1⟩ ⟨1, 1, 1, 1, fun _ _ _ _ => 1⟩ 1 1 1) :=
  conv_asymmetric_pad_explicit 0 1 0 1 ⟨1, 1, 1, 1, fun _ _ _ _ => 1⟩
    ⟨1, 1, 1, 1, fun _ _ _ _ => 1⟩ 1 1 1 (by norm_num) (by norm_num) (by norm_num)
    (by norm_num) (by norm_num) (by norm_num) (by norm_num) (by norm_num) (by norm_num)

/-- `exceptIsOk` on a success. -/
theorem exceptIsOk_ok {α : Type} (a : α) : exceptIsOk (Except.ok a) = true := rfl

/-- `exceptIsOk` on a failure. -/
theorem exceptIsOk_error {α : Type} (e : String) :
    exceptIsOk (Except.error e : Except String α) = false := rfl

/-- The `MaxPool` handler under an unsupported `auto_pad`. -/
theorem maxPoolHandler_auto_pad (a : PoolAttrs)
    (hap : ¬(a.auto_pad = none ∨ a.auto_pad = some "NOTSET")) :
    maxPoolHandler a = .error "unsupported auto_pad" := by
  unfold maxPoolHandler
  rw [if_pos hap]

/-- The `MaxPool` handler under a non-identity dilation. -/
theorem maxPoolHandler_dil (a : PoolAttrs)
    (hap : a.auto_pad = none ∨ a.auto_pad = some "NOTSET")
    (hdil : (a.dilations.getD []).any (fun v => v ≠ 1) = true) :
    maxPoolHandler a = .error "MaxPool with dilation != 1" := by
  unfold maxPoolHandler
  rw [if_neg (not_not_intro hap), if_pos hdil]

/-- The `MaxPool` handler under non-zero pads. -/
theorem maxPoolHandler_pads (a : PoolAttrs)
    (hap : a.auto_pad = none ∨ a.auto_pad = some "NOTSET")
    (hdil : (a.dilations.getD []).any (fun v => v ≠ 1) = false)
    (hpads : (a.pads.getD []).any (fun v => v ≠ 0) = true) :
    maxPoolHandler a = .error "MaxPool with pads != 0" := by
  unfold maxPoolHandler
  rw [if_neg (not_not_intro hap), if_neg (by rw [hdil]; exact Bool.false_ne_true), if_pos hpads]

/-- The `MaxPool` handler with supported auto_pad, dilations and pads
reduces to the kernel/strides dispatch. -/
theorem maxPoolHandler_accept (a : PoolAttrs)
    (hap : a.auto_pad = none ∨ a.auto_pad = some "NOTSET")
    (hdil : (a.dilations.getD []).any (fun v => v ≠ 1) = false)
    (hpads : (a.pads.getD []).any (fun v => v ≠ 0) = false) :
    maxPoolHandler a =
      (match a.kernel_shape with
       | [k1, k2] =>
         match a.strides with
         | none => .ok (.noStride (toU64 k1) (toU64 k2))
         | some [s1, s2] => .ok (.withStride (toU64 k1) (toU64 k2) (toU64 s1) (toU64 s2))
         | some _ => .error "only 2d MaxPool is supported, strides"
       | _ => .error "only 2d MaxPool is supported, kernel shape") := by
  unfold maxPoolHandler
  rw [if_neg (not_not_intro hap), if_neg (by rw [hdil]; exact Bool.false_ne_true), if_neg (by rw [hpads]; exact Bool.false_ne_true)]

/-- The `AveragePool` handler under an unsupported `auto_pad`. -/
theorem avgPoolHandler_auto_pad (a : PoolAttrs)
    (hap : ¬(a.auto_pad = none ∨ a.auto_pad = some "NOTSET")) :
    avgPoolHandler a = .error "unsupported auto_pad" := by
  unfold avgPoolHandler
  rw [if_pos hap]

/-- The `AveragePool` handler under a non-identity dilation. -/
theorem avgPoolHandler_dil (a : PoolAttrs)
    (hap : a.auto_pad = none ∨ a.auto_pad = some "NOTSET")
    (hdil : (a.dilations.getD []).any (fun v => v ≠ 1) = true) :
    avgPoolHandler a = .error "AvgPool with dilation != 1" := by
  unfold avgPoolHandler
  rw [if_neg (not_not_intro hap), if_pos hdil]

/-- The `AveragePool` handler under non-zero pads. -/
theorem avgPoolHandler_pads (a : PoolAttrs)
    (hap : a.auto_pad = none ∨ a.auto_pad = some "NOTSET")
    (hdil : (a.dilations.getD []).any (fun v => v ≠ 1) = false)
    (hpads : (a.pads.getD []).any (fun v => v ≠ 0) = true) :
    avgPoolHandler a = .error "AvgPool with pads != 0" := by
  unfold avgPoolHandler
  rw [if_neg (not_not_intro hap), if_neg (by rw [hdil]; exact Bool.false_ne_true), if_pos hpads]

/-- The `AveragePool` handler with supported auto_pad, dilations and pads
reduces to the kernel/strides dispatch. -/
theorem avgPoolHandler_accept (a : PoolAttrs)
    (hap : a.auto_pad = none ∨ a.auto_pad = some "NOTSET")
    (hdil : (a.dilations.getD []).any (fun v => v ≠ 1) = false)
    (hpads : (a.pads.getD []).any (fun v => v ≠ 0) = false) :
    avgPoolHandler a =
      (match a.kernel_shape with
       | [k1, k2] =>
         match a.strides with
         | none => .ok (.noStride (toU64 k1) (toU64 k2))
         | some [s1, s2] => .ok (.withStride (toU64 k1) (toU64 k2) (toU64 s1) (toU64 s2))
         | some _ => .error "only 2d AvgPool is supported, strides"
       | _ => .error "only 2d AvgPool is supported, kernel shape") := by
  unfold avgPoolHandler
  rw [if_neg (not_not_intro hap), if_neg (by rw [hdil]; exact Bool.false_ne_true), if_neg (by rw [hpads]; exact Bool.false_ne_true)]

/-- C9: both pool handlers fail exactly on the claim's rejection list (a
dilation entry other than 1, a pads entry other than 0, an auto_pad other
than the no-padding mode `NOTSET`, a kernel-shape or strides descriptor of
length other than 2), and otherwise invoke the 2-D pooling primitive with
the given kernel and stride. -/
theorem pool_rejection_conditions :
    ∀ a : PoolAttrs,
      exceptIsOk (maxPoolHandler a) = !(poolRejects a) ∧
      exceptIsOk (avgPoolHandler a) = !(poolRejects a) ∧
      (poolRejects a = false →
        ∃ c, poolCallOf a = some c ∧ maxPoolHandler a = .ok c ∧ avgPoolHandler a = .ok c) := by
  intro a
  by_cases hap : a.auto_pad = none ∨ a.auto_pad = some "NOTSET"
  · cases hdil : (a.dilations.getD []).any (fun v => v ≠ 1) with
    | true =>
      have hrej : poolRejects a = true := by
        simp only [poolRejects, hdil, Bool.true_or]
      rw [maxPoolHandler_dil a hap hdil, avgPoolHandler_dil a hap hdil, hrej]
      exact ⟨rfl, rfl, fun h => absurd h (by simp)⟩
    | false =>
      cases hpads : (a.pads.getD []).any (fun v => v ≠ 0) with
      | true =>
        have hrej : poolRejects a = true := by
          simp only [poolRejects, hdil, hpads, Bool.false_or, Bool.true_or]
        rw [maxPoolHandler_pads a hap hdil hpads, avgPoolHandler_pads a hap hdil hpads, hrej]
        exact ⟨rfl, rfl, fun h => absurd h (by simp)⟩
      | false =>
        have hrej : poolRejects a =
            (decide (a.kernel_shape.length ≠ 2) ||
              match a.strides with | none => false | some s => decide (s.length ≠ 2)) := by
          simp only [poolRejects, hdil, hpads, Bool.false_or]
          rcases hap with h | h <;> rw [h] <;> simp
        rw [maxPoolHandler_accept a hap hdil hpads, avgPoolHandler_accept a hap hdil hpads, hrej]
        rcases hks : a.kernel_shape with _ | ⟨k1, _ | ⟨k2, _ | ⟨k3, krest⟩⟩⟩ <;>
          rcases hst : a.strides with _ | ⟨_ | ⟨s1, _ | ⟨s2, _ | ⟨s3, srest⟩⟩⟩⟩ <;>
          simp [hks, hst, exceptIsOk, poolCallOf]
  · have hrej : poolRejects a = true := by
      rcases hpa : a.auto_pad with _ | s
      · exact absurd (Or.inl hpa) hap
      · have hsne : s ≠ "NOTSET" := by
          intro hcontra
          exact hap (Or.inr (by rw [hpa, hcontra]))
        have hcomp : (match a.auto_pad with
            | none => false | some s2 => decide (s2 ≠ "NOTSET")) = true := by
          rw [hpa]
          exact decide_eq_true hsne
        simp only [poolRejects, hcomp, Bool.or_true, Bool.true_or]
    rw [maxPoolHandler_auto_pad a hap, avgPoolHandler_auto_pad a hap, hrej]
    exact ⟨rfl, rfl, fun h => absurd h (by simp)⟩

/-- C9 witness: kernel `[2, 2]` with strides `[2, 2]` and no other
attributes is accepted and invokes the strided 2-D pooling primitive. -/
theorem pool_rejection_conditions_witness :
    ∃ c, poolCallOf ⟨none, [2, 2], none, some [2, 2], none⟩ = some c ∧
      maxPoolHandler ⟨none, [2, 2], none, some [2, 2], none⟩ = .ok c ∧
      avgPoolHandler ⟨none, [2, 2], none, some [2, 2], none⟩ = .ok c :=
  (pool_rejection_conditions ⟨none, [2, 2], none, some [2, 2], none⟩).2.2 rfl

/-- Names not used by any initializer keep their caller-supplied binding
through the seeding phase. -/
theorem seedEnv_frame :
    ∀ (inits : List TensorProto) (inputs env : Env) (name : String),
      seedEnv inputs inits = .ok env → (∀ t ∈ inits, t.name ≠ name) →
      envLookup env name = envLookup inputs name := by
  intro inits
  induction inits with
  | nil =>
    intro inputs env name h _
    cases h
    rfl
  | cons t rest ih =>
    intro inputs env name h hne
    simp only [seedEnv] at h
    cases hg : get_tensor t with
    | error e => rw [hg] at h; cases h
    | ok v =>
      rw [hg] at h
      have hstep := ih (envInsert inputs t.name v) env name h
        (fun x hx => hne x (List.mem_cons_of_mem t hx))
      rw [hstep]
      simp only [envInsert, envLookup]
      rw [if_neg (hne t (List.mem_cons_self t rest))]

/-- C10: seeding inserts the graph initializers after the caller-supplied
inputs, so any name bound by an initializer resolves to the materialized
initializer tensor (the most recent one, if several initializers share the
name), silently replacing any caller-supplied tensor of that name; names
with no initializer keep the caller's binding. -/
theorem initializer_overrides_caller_input :
    (∀ (inits : List TensorProto) (inputs env : Env) (name : String)
       (i : TensorProto) (ti : CTensor),
       seedEnv inputs inits = .ok env →
       inits.reverse.find? (fun t => t.name == name) = some i →
       get_tensor i = .ok ti →
       envLookup env name = some ti) ∧
    (∀ (inits : List TensorProto) (inputs env : Env) (name : String),
       seedEnv inputs inits = .ok env →
       (∀ t ∈ inits, t.name ≠ name) →
       envLookup env name = envLookup inputs name) := by
  constructor
  · intro inits
    induction inits with
    | nil =>
      intro inputs env name i ti _ hfind _
      cases hfind
    | cons t rest ih =>
      intro inputs env name i ti h hfind hmat
      simp only [seedEnv] at h
      cases hg : get_tensor t with
      | error e => rw [hg] at h; cases h
      | ok v =>
        rw [hg] at h
        rw [List.reverse_cons, List.find?_append] at hfind
        cases hrest : rest.reverse.find? (fun t2 => t2.name == name) with
        | some i2 =>
          rw [hrest] at hfind
          simp only [Option.or] at hfind
          cases hfind
          exact ih (envInsert inputs t.name v) env name i ti h hrest hmat
        | none =>
          rw [hrest] at hfind
          simp only [Option.or] at hfind
          have hnone : ∀ x ∈ rest, x.name ≠ name := by
            intro x hx hcontra
            have := List.find?_eq_none.mp hrest x (List.mem_reverse.mpr hx)
            exact this (by rw [hcontra]; exact beq_self_eq_true name)
          cases hpt : (t.name == name) with
          | false => simp [List.find?, hpt] at hfind
          | true =>
            have hteq : t.name = name := beq_iff_eq.mp hpt
            have hi : i = t := by
              simp [List.find?, hpt] at hfind
              exact hfind.symm
            subst hi
            rw [hg] at hmat
            cases hmat
            rw [seedEnv_frame rest (envInsert inputs i.name ti) env name h hnone]
            simp only [envInsert, envLookup]
            rw [if_pos hteq]
  · exact seedEnv_frame

/-- C10 witness: a name bound both by the caller and by an initializer
resolves to the materialized initializer tensor after seeding. -/
theorem initializer_overrides_caller_input_witness :
    envLookup [("w", ⟨DType.I64, [1], TData.fromInt64Data [9]⟩),
               ("w", ⟨DType.F32, [1], TData.fromRawBuffer [0]⟩)] "w" =
      some ⟨DType.I64, [1], TData.fromInt64Data [9]⟩ :=
  initializer_overrides_caller_input.1 [⟨"w", [1], 7, [], [], [9], []⟩]
    [("w", ⟨DType.F32, [1], TData.fromRawBuffer [0]⟩)]
    [("w", ⟨DType.I64, [1], TData.fromInt64Data [9]⟩),
     ("w", ⟨DType.F32, [1], TData.fromRawBuffer [0]⟩)] "w"
    ⟨"w", [1], 7, [], [], [9], []⟩ ⟨DType.I64, [1], TData.fromInt64Data [9]⟩ rfl rfl rfl

end CandleOnnx